import Mathlib

/-
Verification development for the double-half-pulse sequence repository.

The repository's own code (make_half_sinc_pulse.py, make_z_gradient.py,
make_ro_gradient.py, main.py) is embedded shallowly below.  Exact rational
arithmetic (ℚ) stands in for the Python floats, so "equal within
floating-point tolerance" becomes exact equality.  The external pypulseq
services the code calls (trapezoid / extended-trapezoid builders, unit
conversion, rotation) are modelled from the spec's contracts for them; each
such definition says so in its doc comment.
-/

namespace DoubleHalfPulse

/-- System limits record: the fields of the external `Opts` object that the
repository code reads or overrides. -/
structure Opts where
  max_grad : ℚ
  max_slew : ℚ
  grad_raster_time : ℚ
  rf_raster_time : ℚ
  rf_dead_time : ℚ
deriving Repr, DecidableEq

/-- A trapezoidal gradient event: amplitude, ramp-up time, flat time,
ramp-down time and start delay. -/
structure Trap where
  amplitude : ℚ
  rise_time : ℚ
  flat_time : ℚ
  fall_time : ℚ
  delay : ℚ
deriving Repr, DecidableEq

/-- Time integral of the trapezoid's amplitude. -/
def Trap.area (g : Trap) : ℚ :=
  g.amplitude * (g.flat_time + g.rise_time / 2 + g.fall_time / 2)

/-- Area of the flat portion only. -/
def Trap.flat_area (g : Trap) : ℚ :=
  g.amplitude * g.flat_time

/-- Total time span of a trapezoid event: delay plus rise, flat and fall
times (the external `calc_duration` applied to a single trapezoid). -/
def calc_duration (g : Trap) : ℚ :=
  g.delay + g.rise_time + g.flat_time + g.fall_time

/-- Round `x` up to the next multiple of the raster period. -/
def ceilToRaster (x raster : ℚ) : ℚ :=
  ⌈x / raster⌉ * raster

/-- Modelled from the spec: the external Trapezoid Gradient Builder in its
(flat_time, flat_area) parameterization.  The amplitude is forced to
flat_area / flat_time; the ramps are the slew-limited minimum rounded up to
the gradient raster (at least one raster period), rise and fall equal. -/
def make_trapezoid_flat (system : Opts) (flat_time flat_area : ℚ) : Trap :=
  let amplitude := flat_area / flat_time
  let rise0 := ceilToRaster (|amplitude| / system.max_slew) system.grad_raster_time
  let rise_time := if rise0 = 0 then system.grad_raster_time else rise0
  { amplitude := amplitude, rise_time := rise_time, flat_time := flat_time,
    fall_time := rise_time, delay := 0 }

/-- Modelled from the spec: the external Trapezoid Gradient Builder in its
area-only parameterization.  The builder promises an event whose time
integral equals the requested area; we model the shortest-triangle choice
with one raster period per ramp and the amplitude recomputed so the area is
met exactly. -/
def make_trapezoid_area (system : Opts) (area : ℚ) : Trap :=
  let rise_time := system.grad_raster_time
  let amplitude := area / rise_time
  { amplitude := amplitude, rise_time := rise_time, flat_time := 0,
    fall_time := rise_time, delay := 0 }

/-- Modelled from the spec: the external Trapezoid Gradient Builder in its
(area, duration) parameterization.  Rise and fall split the requested
duration symmetrically and the amplitude is recomputed so the time integral
equals the requested area exactly, as the spec's contract promises. -/
def make_trapezoid_area_duration (area duration : ℚ) : Trap :=
  let rise_time := duration / 2
  let amplitude := area / (duration / 2)
  { amplitude := amplitude, rise_time := rise_time, flat_time := 0,
    fall_time := rise_time, delay := 0 }

/-- Modelled from the spec: the external Trapezoid Gradient Builder in its
explicit (amplitude, rise_time, flat_time, fall_time, delay)
parameterization, which passes the shape through unchanged. -/
def make_trapezoid_amp (amplitude rise_time flat_time fall_time delay : ℚ) : Trap :=
  { amplitude := amplitude, rise_time := rise_time, flat_time := flat_time,
    fall_time := fall_time, delay := delay }

/-- Default gyromagnetic ratio of the external unit converter, in Hz/T. -/
def gammaDefault : ℚ := 42576000

/-- Modelled from the spec: the external Unit/Amplitude Converter for the
one conversion the repository uses, mT/m to Hz/m:  multiply by 10⁻³ (mT to
T) and by the gyromagnetic ratio (T to Hz). -/
def convert_mT_m_to_Hz_m (v : ℚ) : ℚ :=
  v * (1 / 1000) * gammaDefault

/-- Time integral of the piecewise-linear waveform through the given
(time, amplitude) control points (trapezoidal rule segment by segment). -/
def piecewise_area : List (ℚ × ℚ) → ℚ
  | [] => 0
  | [_] => 0
  | (t1, a1) :: (t2, a2) :: rest =>
      (t2 - t1) * (a1 + a2) / 2 + piecewise_area ((t2, a2) :: rest)

/-- An extended-trapezoid gradient event, kept as its control points.
Modelled from the spec: the external Piecewise Gradient Builder returns the
linear interpolation through the control points, so its area is the
trapezoidal integral `piecewise_area`. -/
structure ExtTrap where
  points : List (ℚ × ℚ)
deriving Repr, DecidableEq

/-- Time integral of the extended trapezoid's amplitude. -/
def ExtTrap.area (g : ExtTrap) : ℚ :=
  piecewise_area g.points

/-- Embedding of `make_z_gradient_separat` (make_z_gradient.py): converts
the three amplitudes from mT/m to Hz/m and builds the slice-select,
mid-phase and rephase extended trapezoids from their control points. -/
def make_z_gradient_separat (ss_amp ss_rut ss_flat ss_rdt
    mp_amp mp_rut mp_flat mp_rdt rp_amp rp_rut rp_rdt : ℚ) :
    ExtTrap × ExtTrap × ExtTrap :=
  let ssA := convert_mT_m_to_Hz_m ss_amp
  let mpA := convert_mT_m_to_Hz_m mp_amp
  let rpA := convert_mT_m_to_Hz_m rp_amp
  (⟨[(0, 0), (ss_rut, ssA), (ss_rut + ss_flat, ssA),
     (ss_rut + ss_flat + ss_rdt, 0)]⟩,
   ⟨[(0, 0), (mp_rut, mpA), (mp_rut + mp_flat, mpA),
     (mp_rut + mp_flat + mp_rdt, 0)]⟩,
   ⟨[(0, 0), (rp_rut, rpA), (rp_rut + rp_rdt, 0)]⟩)

/-- `make_z_gradient_separat` at its default parameters
(ss 5.87 mT/m, 100 µs / 400 µs / 30 µs; mp −18.81 mT/m,
100 µs / 170 µs / 100 µs; rp −2.94 mT/m, 30 µs / 30 µs). -/
def make_z_gradient_separat_defaults : ExtTrap × ExtTrap × ExtTrap :=
  make_z_gradient_separat (587 / 100) (1 / 10000) (4 / 10000) (3 / 100000)
    (-(1881 / 100)) (1 / 10000) (17 / 100000) (1 / 10000)
    (-(294 / 100)) (3 / 100000) (3 / 100000)

/-- A radio-frequency pulse event: sampled signal, its time stamps, start
delay and reported shape duration.  The sample values are kept as rationals
(one magnitude per sample); the bisection logic never inspects them. -/
structure RF where
  signal : List ℚ
  t : List ℚ
  delay : ℚ
  shape_dur : ℚ
deriving Repr, DecidableEq

/-- The failure kinds `make_half_sinc_pulse` raises, in source order:
invalid `side` argument, odd full-pulse sample count, missing slice
thickness when a gradient triplet is requested. -/
inductive HalfPulseError
  | invalidSide
  | oddSampleCount
  | sliceThicknessMissing
deriving Repr, DecidableEq

/-- The scalar arguments of `make_half_sinc_pulse` that the embedded logic
reads. -/
structure HalfPulseArgs where
  side : String
  duration : ℚ
  dwell : ℚ
  max_grad : ℚ
  max_slew : ℚ
  return_gz : Bool
  slice_thickness : ℚ
  time_bw_product : ℚ
deriving Repr, DecidableEq

/-- The system-limits object actually used for the gradient triplet: the
caller's system with `max_grad` and `max_slew` overridden when positive
(each override acting on a copy, as in the source). -/
def gzSystem (a : HalfPulseArgs) (system : Opts) : Opts :=
  let system1 := if a.max_grad > 0 then { system with max_grad := a.max_grad } else system
  if a.max_slew > 0 then { system1 with max_slew := a.max_slew } else system1

/-- The slice-select trapezoid of the triplet, before any delay
adjustment: flat time = pulse duration, flat area = (tbw/2)/thickness. -/
def gzBase (a : HalfPulseArgs) (system : Opts) : Trap :=
  make_trapezoid_flat (gzSystem a system) a.duration
    (a.time_bw_product / 2 / a.slice_thickness)

/-- The mid-phase trapezoid of the triplet. -/
def gzMid (a : HalfPulseArgs) (system : Opts) : Trap :=
  make_trapezoid_area (gzSystem a system)
    (-((gzBase a system).area + (gzBase a system).flat_area +
       1 / 2 * (gzBase a system).rise_time * (gzBase a system).amplitude))

/-- The rephase trapezoid of the triplet. -/
def gzReph (a : HalfPulseArgs) (system : Opts) : Trap :=
  make_trapezoid_area (gzSystem a system)
    (-(1 / 2 * (gzBase a system).fall_time * (gzBase a system).amplitude))

/-- The slice-select trapezoid as returned: its delay is pushed out to the
raster-rounded difference between the pulse delay and the rise time when
the pulse delay exceeds the rise time. -/
def gzFinal (a : HalfPulseArgs) (system : Opts) (full : RF) : Trap :=
  let g := gzBase a system
  if full.delay > g.rise_time then
    { g with delay := ceilToRaster (full.delay - g.rise_time) (gzSystem a system).grad_raster_time }
  else g

/-- The pulse delay as returned: raised to the slice-select gradient's rise
time plus its delay when it would otherwise start on the ramp. -/
def rfDelayFinal (a : HalfPulseArgs) (system : Opts) (full : RF) : ℚ :=
  if full.delay < (gzFinal a system full).rise_time + (gzFinal a system full).delay then
    (gzFinal a system full).rise_time + (gzFinal a system full).delay
  else full.delay

/-- Embedding of `make_half_sinc_pulse` (make_half_sinc_pulse.py).  The
external sinc synthesis service is abstracted as the already synthesized
full pulse `full` (its `delay` field is the requested delay, which the
synthesis passes through).  The function checks the side argument, checks
that the sample count is even, truncates the time vector to the first half,
keeps the first half of the signal for side "left" and the second half for
side "right", optionally builds the slice-select / mid-phase / rephase
triplet and adjusts the delays, and recomputes `shape_dur` as
half_length × dwell with dwell defaulting to the radio-frequency raster. -/
def make_half_sinc_pulse (a : HalfPulseArgs) (system : Opts) (full : RF) :
    Except HalfPulseError (RF × Option (Trap × Trap × Trap)) :=
  if a.side ≠ "left" ∧ a.side ≠ "right" then .error .invalidSide
  else if full.signal.length % 2 ≠ 0 then .error .oddSampleCount
  else
    let half_length := full.signal.length / 2
    let t := full.t.take half_length
    let signal :=
      if a.side = "left" then full.signal.take half_length
      else full.signal.drop half_length
    let dwell := if a.dwell = 0 then system.rf_raster_time else a.dwell
    if a.return_gz then
      if a.slice_thickness = 0 then .error .sliceThicknessMissing
      else
        .ok ({ signal := signal, t := t, delay := rfDelayFinal a system full,
               shape_dur := (half_length : ℚ) * dwell },
             some (gzFinal a system full, gzMid a system, gzReph a system))
    else
      .ok ({ signal := signal, t := t, delay := full.delay,
             shape_dur := (half_length : ℚ) * dwell }, none)

/-- Embedding of the `slice_profile` branch of
`make_basic_gx_gradient_separat` (make_ro_gradient.py): convert the
amplitudes, build the main readout lobe, build a prephaser trapezoid whose
requested area is minus half the readout area with duration
max(calc_duration(gx)/4, 200 µs), set the readout lobe's delay to the
prephaser's rise + flat + fall time, and build the spoiler delayed past the
prephaser and readout flat. -/
def make_basic_gx_gradient_separat_slice_profile
    (gx_amp gx_rut gx_flat gx_rdt spoil_amp spoil_rut spoil_flat spoil_rdt : ℚ) :
    Trap × Trap × Trap :=
  let gxA := convert_mT_m_to_Hz_m gx_amp
  let spA := convert_mT_m_to_Hz_m spoil_amp
  let gx0 := make_trapezoid_amp gxA gx_rut gx_flat gx_rdt 0
  let prephase := make_trapezoid_area_duration (-gx0.area / 2)
    (max (calc_duration gx0 / 4) (1 / 5000))
  let gx := { gx0 with delay :=
    prephase.rise_time + prephase.flat_time + prephase.fall_time }
  let spoil := make_trapezoid_amp spA spoil_rut spoil_flat spoil_rdt
    (gx_rut + gx_flat + prephase.rise_time + prephase.flat_time + prephase.fall_time)
  (gx, spoil, prephase)

/-! ## Sequence assembler model (main.py)

The per-spoke loop of `main` is modelled over the real numbers: the rotation
angle involves π and √5, so the angle arithmetic is exact rather than
floating point.  Only the data the claims inspect is carried: which event
each block holds, the rotated amplitudes, and each event's time extent
(delay + active time), from which block and spoke durations are computed the
way the external `calc_duration` / `Sequence.duration` services do (block
duration = max event extent, sequence duration = sum of block durations). -/

/-- In-plane gradient channels that a z-axis rotation can populate. -/
inductive Channel
  | x
  | y
deriving Repr, DecidableEq

/-- One rotated gradient event: its channel, its (scaled) amplitude and its
time extent.  Rotation about z scales amplitudes but keeps the timing. -/
structure Grad2 where
  channel : Channel
  amp : ℝ
  ext : ℝ

instance : Inhabited Grad2 := ⟨⟨Channel.x, 0, 0⟩⟩

/-- The angular increment `4 * np.pi / (np.sqrt(5) + 1)` of main.py. -/
noncomputable def doubleGoldenAngle : ℝ := 4 * Real.pi / (Real.sqrt 5 + 1)

/-- Rotation angle of spoke `i`: `i * double_golden_angle`. -/
noncomputable def spokeAngle (i : ℕ) : ℝ := i * doubleGoldenAngle

open Classical in
/-- Modelled from the spec: the external rotate service applied to the
x-only combined readout+spoiler gradient of amplitude `A` and extent `E`:
rotating about z by `θ` puts `A cos θ` on x and `A sin θ` on y, and the
service returns only the axes whose waveform is not identically zero (one
event for an on-axis result, two otherwise). -/
noncomputable def rotatedGrads (A E θ : ℝ) : List Grad2 :=
  (if A * Real.cos θ = 0 then [] else [⟨Channel.x, A * Real.cos θ, E⟩]) ++
  (if A * Real.sin θ = 0 then [] else [⟨Channel.y, A * Real.sin θ, E⟩])

/-- The events main.py places into blocks: the slice-select gradient, the
two half pulses, the mid-phase and rephase gradients, a rotated readout
gradient, and the sampling (ADC) window. -/
inductive SeqEv
  | sliceSelect
  | rfRight
  | rfLeft
  | midPhase
  | rephase
  | grad (g : Grad2)
  | adcWin

/-- Time extents (delay + active time) of the prepared events of `main`,
plus the combined readout+spoiler amplitude `roAmp` and extent `roExt`. -/
structure MainEvents where
  ssExt : ℝ
  rfRightExt : ℝ
  rfLeftExt : ℝ
  mpExt : ℝ
  rpExt : ℝ
  roAmp : ℝ
  roExt : ℝ
  adcExt : ℝ

/-- Time extent of a block event. -/
def evExt (P : MainEvents) : SeqEv → ℝ
  | .sliceSelect => P.ssExt
  | .rfRight => P.rfRightExt
  | .rfLeft => P.rfLeftExt
  | .midPhase => P.mpExt
  | .rephase => P.rpExt
  | .grad g => g.ext
  | .adcWin => P.adcExt

open Classical in
/-- The readout block of spoke `i` in main.py: rotate the combined
readout+spoiler by the spoke angle; if the rotate service returned a single
event, add that gradient and the ADC window to one block, otherwise unpack
the two events and add both with the ADC window. -/
noncomputable def readoutBlock (P : MainEvents) (i : ℕ) : List SeqEv :=
  let r := rotatedGrads P.roAmp P.roExt (spokeAngle i)
  if r.length = 1 then [SeqEv.grad (r.getD 0 default), SeqEv.adcWin]
  else [SeqEv.grad (r.getD 0 default), SeqEv.grad (r.getD 1 default), SeqEv.adcWin]

/-- The five blocks of spoke `i`, in the order main.py adds them. -/
noncomputable def spokeBlocks (P : MainEvents) (i : ℕ) : List (List SeqEv) :=
  [[SeqEv.sliceSelect, SeqEv.rfRight],
   [SeqEv.midPhase],
   [SeqEv.sliceSelect, SeqEv.rfLeft],
   [SeqEv.rephase],
   readoutBlock P i]

/-- All blocks added by main.py's loop over `num_spokes` spokes. -/
noncomputable def mainBlocks (P : MainEvents) (numSpokes : ℕ) : List (List SeqEv) :=
  ((List.range numSpokes).map (spokeBlocks P)).flatten

/-- Duration of one block: the largest event extent in it (zero when the
block is empty), as the external duration service computes it. -/
noncomputable def blockDuration (P : MainEvents) (b : List SeqEv) : ℝ :=
  (b.map (evExt P)).foldr max 0

/-- Total duration of a list of blocks: sum of the block durations. -/
noncomputable def blocksDuration (P : MainEvents) (bs : List (List SeqEv)) : ℝ :=
  (bs.map (blockDuration P)).sum

/-- Duration of spoke `i`: sum of its five block durations. -/
noncomputable def spokeDuration (P : MainEvents) (i : ℕ) : ℝ :=
  blocksDuration P (spokeBlocks P i)

/-- Concrete system limits used by the witnesses and the counterexample. -/
def sysW : Opts := ⟨10000000, 50000000, 1 / 100000, 1 / 1000000, 0⟩

/-- Concrete arguments requesting the gradient triplet at the constructor's
hardcoded defaults (duration 4 ms, time-bandwidth product 4, dwell 0), with
slice thickness 1 m. -/
def argsGzW : HalfPulseArgs := ⟨"left", 1 / 250, 0, 0, 0, true, 1, 4⟩

/-- A concrete even-length synthesized full pulse. -/
def fullW : RF := ⟨[1, 2], [0, 1], 0, 7⟩

/-- Concrete event extents and readout amplitude used by the sequence
assembler witnesses. -/
def witnessEvents : MainEvents := ⟨1, 1, 1, 1, 1, 1, 1, 1⟩

/-! ## Theorems -/

theorem side_cond_false {a : HalfPulseArgs} (hside : a.side = "left" ∨ a.side = "right") :
    ¬(a.side ≠ "left" ∧ a.side ≠ "right") := by
  rcases hside with h | h <;> simp [h]

/-- Evaluation of `make_half_sinc_pulse` on a valid side, an even-length
full pulse and no gradient request. -/
theorem make_half_sinc_pulse_no_gz (a : HalfPulseArgs) (system : Opts) (full : RF)
    (hside : a.side = "left" ∨ a.side = "right")
    (heven : full.signal.length % 2 = 0) (hgz : a.return_gz = false) :
    make_half_sinc_pulse a system full =
      .ok ({ signal := if a.side = "left"
                 then full.signal.take (full.signal.length / 2)
                 else full.signal.drop (full.signal.length / 2),
             t := full.t.take (full.signal.length / 2),
             delay := full.delay,
             shape_dur := ((full.signal.length / 2 : ℕ) : ℚ) *
               (if a.dwell = 0 then system.rf_raster_time else a.dwell) }, none) := by
  unfold make_half_sinc_pulse
  rw [if_neg (side_cond_false hside), if_neg (by omega), hgz]
  simp

/-- Evaluation of `make_half_sinc_pulse` on a valid side, an even-length
full pulse, a gradient request and a provided slice thickness. -/
theorem make_half_sinc_pulse_gz (a : HalfPulseArgs) (system : Opts) (full : RF)
    (hside : a.side = "left" ∨ a.side = "right")
    (heven : full.signal.length % 2 = 0)
    (hgz : a.return_gz = true) (hth : a.slice_thickness ≠ 0) :
    make_half_sinc_pulse a system full =
      .ok ({ signal := if a.side = "left"
                 then full.signal.take (full.signal.length / 2)
                 else full.signal.drop (full.signal.length / 2),
             t := full.t.take (full.signal.length / 2),
             delay := rfDelayFinal a system full,
             shape_dur := ((full.signal.length / 2 : ℕ) : ℚ) *
               (if a.dwell = 0 then system.rf_raster_time else a.dwell) },
        some (gzFinal a system full, gzMid a system, gzReph a system)) := by
  unfold make_half_sinc_pulse
  rw [if_neg (side_cond_false hside), if_neg (by omega), hgz]
  simp [hth]

theorem even_halves (n : ℕ) (heven : n % 2 = 0) : n - n / 2 = n / 2 ∧ n / 2 ≤ n := by
  obtain h := Nat.div_add_mod n 2
  omega

/-- Claim C2: for an even-length synthesized full pulse, the "left" half
pulse is exactly the samples [0, half) and the "right" half exactly the
samples [half, end), each of length half the full pulse, and the two signal
halves concatenate back to the full sample sequence. -/
theorem C2_bisection (aL aR : HalfPulseArgs) (system : Opts) (full : RF)
    (hL : aL.side = "left") (hR : aR.side = "right")
    (hLgz : aL.return_gz = false) (hRgz : aR.return_gz = false)
    (heven : full.signal.length % 2 = 0) :
    ∃ rfL rfR : RF,
      make_half_sinc_pulse aL system full = .ok (rfL, none) ∧
      make_half_sinc_pulse aR system full = .ok (rfR, none) ∧
      rfL.signal = full.signal.take (full.signal.length / 2) ∧
      rfR.signal = full.signal.drop (full.signal.length / 2) ∧
      rfL.signal.length = full.signal.length / 2 ∧
      rfR.signal.length = full.signal.length / 2 ∧
      rfL.signal ++ rfR.signal = full.signal := by
  have eL := make_half_sinc_pulse_no_gz aL system full (Or.inl hL) heven hLgz
  have eR := make_half_sinc_pulse_no_gz aR system full (Or.inr hR) heven hRgz
  rw [hL] at eL
  rw [hR] at eR
  simp only [if_pos rfl] at eL
  rw [if_neg (by simp)] at eR
  obtain ⟨hsub, hle⟩ := even_halves full.signal.length heven
  refine ⟨_, _, eL, eR, rfl, rfl, ?_, ?_, ?_⟩
  · simpa using hle
  · simpa using hsub
  · exact List.take_append_drop _ _

/-- Claim C10: for an even-length full pulse, both the left and the right
half pulse carry the first half of the original time vector, so the right
half's retained samples [half, end) are paired with the left half's time
stamps. -/
theorem C10_time_vector (aL aR : HalfPulseArgs) (system : Opts) (full : RF)
    (hL : aL.side = "left") (hR : aR.side = "right")
    (hLgz : aL.return_gz = false) (hRgz : aR.return_gz = false)
    (heven : full.signal.length % 2 = 0) :
    ∃ rfL rfR : RF,
      make_half_sinc_pulse aL system full = .ok (rfL, none) ∧
      make_half_sinc_pulse aR system full = .ok (rfR, none) ∧
      rfL.t = full.t.take (full.signal.length / 2) ∧
      rfR.t = full.t.take (full.signal.length / 2) ∧
      rfR.signal = full.signal.drop (full.signal.length / 2) := by
  have eL := make_half_sinc_pulse_no_gz aL system full (Or.inl hL) heven hLgz
  have eR := make_half_sinc_pulse_no_gz aR system full (Or.inr hR) heven hRgz
  rw [hL] at eL
  rw [hR] at eR
  simp only [if_pos rfl] at eL
  rw [if_neg (by simp)] at eR
  exact ⟨_, _, eL, eR, rfl, rfl, rfl⟩

/-- Claim C9: for a side argument other than "left" or "right",
`make_half_sinc_pulse` fails with the invalid-side error before anything
else is inspected, whatever the pulse or the other arguments, so no partial
event is returned. -/
theorem C9_invalid_side (a : HalfPulseArgs) (system : Opts) (full : RF)
    (hs : a.side ≠ "left" ∧ a.side ≠ "right") :
    make_half_sinc_pulse a system full = .error .invalidSide := by
  unfold make_half_sinc_pulse
  rw [if_pos hs]

theorem C9_witness :
    (("up" : String) ≠ "left" ∧ ("up" : String) ≠ "right") ∧
    make_half_sinc_pulse ⟨"up", 0, 0, 0, 0, false, 0, 0⟩
      ⟨0, 0, 0, 0, 0⟩ ⟨[1, 2, 3], [0, 1, 2], 0, 0⟩ = .error .invalidSide :=
  ⟨by decide, C9_invalid_side ⟨"up", 0, 0, 0, 0, false, 0, 0⟩
    ⟨0, 0, 0, 0, 0⟩ ⟨[1, 2, 3], [0, 1, 2], 0, 0⟩ (by decide)⟩

/-- Claim C8: for a full pulse whose sampled signal has an odd number of
elements, `make_half_sinc_pulse` fails (no partial event is returned), and
on any valid side the failure is the odd-sample-count error. -/
theorem C8_odd_sample_count (a : HalfPulseArgs) (system : Opts) (full : RF)
    (hodd : full.signal.length % 2 = 1) :
    (∃ e, make_half_sinc_pulse a system full = .error e) ∧
    (a.side = "left" ∨ a.side = "right" →
      make_half_sinc_pulse a system full = .error .oddSampleCount) := by
  unfold make_half_sinc_pulse
  by_cases hside : a.side ≠ "left" ∧ a.side ≠ "right"
  · rw [if_pos hside]
    refine ⟨⟨_, rfl⟩, ?_⟩
    rintro (h1 | h1) <;> simp [h1] at hside
  · rw [if_neg hside, if_pos (by omega)]
    exact ⟨⟨_, rfl⟩, fun _ => rfl⟩

theorem C8_witness :
    (([(1 : ℚ), 2, 3].length % 2 = 1) ∧
     (∃ e, make_half_sinc_pulse ⟨"left", 0, 0, 0, 0, false, 0, 0⟩
        ⟨0, 0, 0, 0, 0⟩ ⟨[1, 2, 3], [0, 1, 2], 0, 0⟩ = .error e) ∧
     (("left" : String) = "left" ∨ ("left" : String) = "right" →
       make_half_sinc_pulse ⟨"left", 0, 0, 0, 0, false, 0, 0⟩
        ⟨0, 0, 0, 0, 0⟩ ⟨[1, 2, 3], [0, 1, 2], 0, 0⟩ = .error .oddSampleCount)) := by
  refine ⟨by decide, ?_, ?_⟩
  · exact (C8_odd_sample_count ⟨"left", 0, 0, 0, 0, false, 0, 0⟩
      ⟨0, 0, 0, 0, 0⟩ ⟨[1, 2, 3], [0, 1, 2], 0, 0⟩ (by decide)).1
  · exact (C8_odd_sample_count ⟨"left", 0, 0, 0, 0, false, 0, 0⟩
      ⟨0, 0, 0, 0, 0⟩ ⟨[1, 2, 3], [0, 1, 2], 0, 0⟩ (by decide)).2

theorem C2_witness :
    (([(5 : ℚ), 6, 7, 8].length % 2 = 0) ∧
     ∃ rfL rfR : RF,
      make_half_sinc_pulse ⟨"left", 0, 0, 0, 0, false, 0, 0⟩
        ⟨0, 0, 0, 0, 0⟩ ⟨[5, 6, 7, 8], [0, 1, 2, 3], 0, 0⟩ = .ok (rfL, none) ∧
      make_half_sinc_pulse ⟨"right", 0, 0, 0, 0, false, 0, 0⟩
        ⟨0, 0, 0, 0, 0⟩ ⟨[5, 6, 7, 8], [0, 1, 2, 3], 0, 0⟩ = .ok (rfR, none) ∧
      rfL.signal = [(5 : ℚ), 6, 7, 8].take ([(5 : ℚ), 6, 7, 8].length / 2) ∧
      rfR.signal = [(5 : ℚ), 6, 7, 8].drop ([(5 : ℚ), 6, 7, 8].length / 2) ∧
      rfL.signal.length = [(5 : ℚ), 6, 7, 8].length / 2 ∧
      rfR.signal.length = [(5 : ℚ), 6, 7, 8].length / 2 ∧
      rfL.signal ++ rfR.signal = [(5 : ℚ), 6, 7, 8]) :=
  ⟨by decide, C2_bisection ⟨"left", 0, 0, 0, 0, false, 0, 0⟩ ⟨"right", 0, 0, 0, 0, false, 0, 0⟩
    ⟨0, 0, 0, 0, 0⟩ ⟨[5, 6, 7, 8], [0, 1, 2, 3], 0, 0⟩ rfl rfl rfl rfl (by decide)⟩

theorem C10_witness :
    (([(5 : ℚ), 6, 7, 8].length % 2 = 0) ∧
     ∃ rfL rfR : RF,
      make_half_sinc_pulse ⟨"left", 0, 0, 0, 0, false, 0, 0⟩
        ⟨0, 0, 0, 0, 0⟩ ⟨[5, 6, 7, 8], [0, 1, 2, 3], 0, 0⟩ = .ok (rfL, none) ∧
      make_half_sinc_pulse ⟨"right", 0, 0, 0, 0, false, 0, 0⟩
        ⟨0, 0, 0, 0, 0⟩ ⟨[5, 6, 7, 8], [0, 1, 2, 3], 0, 0⟩ = .ok (rfR, none) ∧
      rfL.t = [(0 : ℚ), 1, 2, 3].take ([(5 : ℚ), 6, 7, 8].length / 2) ∧
      rfR.t = [(0 : ℚ), 1, 2, 3].take ([(5 : ℚ), 6, 7, 8].length / 2) ∧
      rfR.signal = [(5 : ℚ), 6, 7, 8].drop ([(5 : ℚ), 6, 7, 8].length / 2)) :=
  ⟨by decide, C10_time_vector ⟨"left", 0, 0, 0, 0, false, 0, 0⟩ ⟨"right", 0, 0, 0, 0, false, 0, 0⟩
    ⟨0, 0, 0, 0, 0⟩ ⟨[5, 6, 7, 8], [0, 1, 2, 3], 0, 0⟩ rfl rfl rfl rfl (by decide)⟩

theorem shape_dur_ignored (a : HalfPulseArgs) (system : Opts) (full : RF) (d : ℚ) :
    make_half_sinc_pulse a system { full with shape_dur := d } =
      make_half_sinc_pulse a system full := by
  obtain ⟨s, t, de, sd⟩ := full
  rfl

/-- Claim C3: every half pulse `make_half_sinc_pulse` returns reports
`shape_dur` = half_length × dwell, with dwell defaulting to the system
radio-frequency raster when the dwell argument is zero, and the result does
not depend on the full pulse's own duration metadata at all. -/
theorem C3_shape_dur (a : HalfPulseArgs) (system : Opts) (full : RF)
    (rf0 : RF) (rest : Option (Trap × Trap × Trap))
    (h : make_half_sinc_pulse a system full = .ok (rf0, rest)) :
    rf0.shape_dur = ((full.signal.length / 2 : ℕ) : ℚ) *
      (if a.dwell = 0 then system.rf_raster_time else a.dwell) ∧
    ∀ d : ℚ, make_half_sinc_pulse a system { full with shape_dur := d } = .ok (rf0, rest) := by
  refine ⟨?_, fun d => (shape_dur_ignored a system full d).trans h⟩
  by_cases hside : a.side = "left" ∨ a.side = "right"
  case neg =>
    unfold make_half_sinc_pulse at h
    rw [if_pos (by tauto)] at h
    exact absurd h (by simp)
  by_cases heven : full.signal.length % 2 = 0
  case neg =>
    unfold make_half_sinc_pulse at h
    rw [if_neg (side_cond_false hside), if_pos (by omega)] at h
    exact absurd h (by simp)
  by_cases hgz : a.return_gz = true
  · by_cases hth : a.slice_thickness = 0
    · unfold make_half_sinc_pulse at h
      rw [if_neg (side_cond_false hside), if_neg (by omega), hgz] at h
      simp [hth] at h
    · rw [make_half_sinc_pulse_gz a system full hside heven hgz hth] at h
      injection h with h1
      injection h1 with h2 h3
      rw [← h2]
  · rw [make_half_sinc_pulse_no_gz a system full hside heven (by simpa using hgz)] at h
    injection h with h1
    injection h1 with h2 h3
    rw [← h2]

/-- Claim C6: with a gradient triplet requested, the returned pulse delay
is never smaller than the synthesized pulse's requested delay, and whenever
the requested delay is below the slice-select gradient's rise time plus its
delay, the returned pulse delay is raised to exactly that value. -/
theorem C6_delay_adjustment (a : HalfPulseArgs) (system : Opts) (full : RF)
    (hside : a.side = "left" ∨ a.side = "right")
    (heven : full.signal.length % 2 = 0)
    (hgz : a.return_gz = true) (hth : a.slice_thickness ≠ 0) :
    ∃ rf0 gz gzm gzr,
      make_half_sinc_pulse a system full = .ok (rf0, some (gz, gzm, gzr)) ∧
      full.delay ≤ rf0.delay ∧
      (full.delay < gz.rise_time + gz.delay → rf0.delay = gz.rise_time + gz.delay) := by
  refine ⟨_, _, _, _, make_half_sinc_pulse_gz a system full hside heven hgz hth, ?_, ?_⟩
  · show full.delay ≤ rfDelayFinal a system full
    unfold rfDelayFinal
    split
    · exact le_of_lt (by assumption)
    · exact le_refl _
  · show full.delay < _ → rfDelayFinal a system full = _
    intro hlt
    unfold rfDelayFinal
    rw [if_pos hlt]

theorem make_trapezoid_area_exact (system : Opts) (A : ℚ)
    (h : system.grad_raster_time ≠ 0) :
    (make_trapezoid_area system A).area = A := by
  unfold make_trapezoid_area Trap.area
  field_simp

theorem gzFinal_area (a : HalfPulseArgs) (system : Opts) (full : RF) :
    (gzFinal a system full).area = (gzBase a system).area := by
  simp only [gzFinal]
  split <;> rfl

theorem gzSystem_raster (a : HalfPulseArgs) (system : Opts) :
    (gzSystem a system).grad_raster_time = system.grad_raster_time := by
  unfold gzSystem
  split <;> split <;> rfl

/-- Amended claim C1: the gradient triplet of the half-pulse constructor's
return_gz path sums to minus the slice-select area, not to zero; counting
the slice-select event twice — once per half pulse, as every spoke plays
it — the net area is zero. -/
theorem C1_closure (a : HalfPulseArgs) (system : Opts) (full : RF)
    (hside : a.side = "left" ∨ a.side = "right")
    (heven : full.signal.length % 2 = 0)
    (hgz : a.return_gz = true) (hth : a.slice_thickness ≠ 0)
    (hraster : system.grad_raster_time ≠ 0) :
    ∃ rf0 gz gzm gzr,
      make_half_sinc_pulse a system full = .ok (rf0, some (gz, gzm, gzr)) ∧
      gz.area + gzm.area + gzr.area = -gz.area ∧
      2 * gz.area + gzm.area + gzr.area = 0 := by
  have hr : (gzSystem a system).grad_raster_time ≠ 0 := by
    rw [gzSystem_raster]
    exact hraster
  refine ⟨_, _, _, _, make_half_sinc_pulse_gz a system full hside heven hgz hth, ?_, ?_⟩
  all_goals
    rw [gzFinal_area]
    unfold gzMid gzReph
    rw [make_trapezoid_area_exact _ _ hr, make_trapezoid_area_exact _ _ hr]
    obtain ⟨amp, r, fl, fa, de⟩ := gzBase a system
    simp only [Trap.area, Trap.flat_area]
    ring

theorem gzBase_eval : gzBase argsGzW sysW = ⟨500, 1 / 100000, 1 / 250, 1 / 100000, 0⟩ := by
  unfold gzBase gzSystem make_trapezoid_flat ceilToRaster
  norm_num [argsGzW, sysW, Int.ceil_one]

theorem gzFinal_eval : gzFinal argsGzW sysW fullW = ⟨500, 1 / 100000, 1 / 250, 1 / 100000, 0⟩ := by
  simp only [gzFinal, gzBase_eval]
  norm_num [fullW]

theorem gzMid_eval : gzMid argsGzW sysW = ⟨-400750, 1 / 100000, 0, 1 / 100000, 0⟩ := by
  unfold gzMid make_trapezoid_area
  rw [gzSystem_raster, gzBase_eval]
  norm_num [sysW, Trap.area, Trap.flat_area]

theorem gzReph_eval : gzReph argsGzW sysW = ⟨-250, 1 / 100000, 0, 1 / 100000, 0⟩ := by
  unfold gzReph make_trapezoid_area
  rw [gzSystem_raster, gzBase_eval]
  norm_num [sysW]

/-- Counterexample to claim C1 as stated: the sum of the three triplet
areas is not zero — neither for `make_z_gradient_separat` at its default
parameters nor for the return_gz triplet of the half-pulse constructor at a
concrete input (second and third conjuncts: that triplet is what the
constructor returns, and its three areas sum to −401/200). -/
theorem C1_counterexample :
    (make_z_gradient_separat_defaults.1.area +
      make_z_gradient_separat_defaults.2.1.area +
      make_z_gradient_separat_defaults.2.2.area ≠ 0) ∧
    (∃ rf0, make_half_sinc_pulse argsGzW sysW fullW =
        .ok (rf0, some (gzFinal argsGzW sysW fullW, gzMid argsGzW sysW, gzReph argsGzW sysW))) ∧
    ((gzFinal argsGzW sysW fullW).area + (gzMid argsGzW sysW).area +
      (gzReph argsGzW sysW).area ≠ 0) := by
  refine ⟨?_, ⟨_, make_half_sinc_pulse_gz argsGzW sysW fullW (Or.inl rfl) (by decide) rfl
    (by norm_num [argsGzW])⟩, ?_⟩
  · unfold make_z_gradient_separat_defaults make_z_gradient_separat ExtTrap.area
    norm_num [piecewise_area, convert_mT_m_to_Hz_m, gammaDefault]
  · rw [gzFinal_eval, gzMid_eval, gzReph_eval]
    norm_num [Trap.area]

theorem C1_witness :
    (("left" : String) = "left" ∨ ("left" : String) = "right") ∧
    fullW.signal.length % 2 = 0 ∧ argsGzW.return_gz = true ∧
    argsGzW.slice_thickness ≠ 0 ∧ sysW.grad_raster_time ≠ 0 ∧
    (∃ rf0 gz gzm gzr,
      make_half_sinc_pulse argsGzW sysW fullW = .ok (rf0, some (gz, gzm, gzr)) ∧
      gz.area + gzm.area + gzr.area = -gz.area ∧
      2 * gz.area + gzm.area + gzr.area = 0) :=
  ⟨Or.inl rfl, by decide, rfl, by norm_num [argsGzW], by norm_num [sysW],
    C1_closure argsGzW sysW fullW (Or.inl rfl) (by decide) rfl
      (by norm_num [argsGzW]) (by norm_num [sysW])⟩

theorem C3_witness :
    ∃ rf0 rest, make_half_sinc_pulse argsGzW sysW fullW = .ok (rf0, rest) ∧
      rf0.shape_dur = ((fullW.signal.length / 2 : ℕ) : ℚ) *
        (if argsGzW.dwell = 0 then sysW.rf_raster_time else argsGzW.dwell) ∧
      ∀ d : ℚ, make_half_sinc_pulse argsGzW sysW { fullW with shape_dur := d } =
        .ok (rf0, rest) := by
  obtain h := make_half_sinc_pulse_gz argsGzW sysW fullW (Or.inl rfl) (by decide) rfl
    (by norm_num [argsGzW])
  exact ⟨_, _, h, (C3_shape_dur _ _ _ _ _ h).1, (C3_shape_dur _ _ _ _ _ h).2⟩

theorem C6_witness :
    (("left" : String) = "left" ∨ ("left" : String) = "right") ∧
    fullW.signal.length % 2 = 0 ∧ argsGzW.return_gz = true ∧
    argsGzW.slice_thickness ≠ 0 ∧
    (∃ rf0 gz gzm gzr,
      make_half_sinc_pulse argsGzW sysW fullW = .ok (rf0, some (gz, gzm, gzr)) ∧
      fullW.delay ≤ rf0.delay ∧
      (fullW.delay < gz.rise_time + gz.delay → rf0.delay = gz.rise_time + gz.delay)) :=
  ⟨Or.inl rfl, by decide, rfl, by norm_num [argsGzW],
    C6_delay_adjustment argsGzW sysW fullW (Or.inl rfl) (by decide) rfl
      (by norm_num [argsGzW])⟩

/-- Claim C7: in slice-profile mode the readout builder's prephaser
trapezoid has exactly minus half the main readout gradient's area, and the
main readout gradient's start delay is exactly the prephaser's rise + flat
+ fall time. -/
theorem C7_prephaser (gx_amp gx_rut gx_flat gx_rdt
    spoil_amp spoil_rut spoil_flat spoil_rdt : ℚ) :
    (make_basic_gx_gradient_separat_slice_profile gx_amp gx_rut gx_flat gx_rdt
        spoil_amp spoil_rut spoil_flat spoil_rdt).2.2.area =
      -(make_basic_gx_gradient_separat_slice_profile gx_amp gx_rut gx_flat gx_rdt
        spoil_amp spoil_rut spoil_flat spoil_rdt).1.area / 2 ∧
    (make_basic_gx_gradient_separat_slice_profile gx_amp gx_rut gx_flat gx_rdt
        spoil_amp spoil_rut spoil_flat spoil_rdt).1.delay =
      (make_basic_gx_gradient_separat_slice_profile gx_amp gx_rut gx_flat gx_rdt
        spoil_amp spoil_rut spoil_flat spoil_rdt).2.2.rise_time +
      (make_basic_gx_gradient_separat_slice_profile gx_amp gx_rut gx_flat gx_rdt
        spoil_amp spoil_rut spoil_flat spoil_rdt).2.2.flat_time +
      (make_basic_gx_gradient_separat_slice_profile gx_amp gx_rut gx_flat gx_rdt
        spoil_amp spoil_rut spoil_flat spoil_rdt).2.2.fall_time := by
  unfold make_basic_gx_gradient_separat_slice_profile
  refine ⟨?_, rfl⟩
  have hd2 : max (calc_duration (make_trapezoid_amp
      (convert_mT_m_to_Hz_m gx_amp) gx_rut gx_flat gx_rdt 0) / 4) (1 / 5000) / 2 ≠ 0 := by
    positivity
  simp only [make_trapezoid_area_duration, Trap.area]
  field_simp
  ring

theorem sqrt5_irrational : Irrational (Real.sqrt 5) := by
  have h5 : Nat.Prime 5 := by norm_num
  simpa using h5.irrational_sqrt

theorem sqrt5_add_one_ne_zero : Real.sqrt 5 + 1 ≠ 0 := by
  have h := Real.sqrt_nonneg 5
  intro h0
  linarith

/-- The spoke angle has zero sine only for spoke 0: for positive `i`,
`i · 4π/(√5+1)` being an integer multiple of π would make √5 rational. -/
theorem spokeAngle_sin_eq_zero {i : ℕ} (h : Real.sin (spokeAngle i) = 0) : i = 0 := by
  rw [Real.sin_eq_zero_iff] at h
  obtain ⟨n, hn⟩ := h
  unfold spokeAngle doubleGoldenAngle at hn
  by_contra hi
  have hs1 := sqrt5_add_one_ne_zero
  have hpi := Real.pi_ne_zero
  rw [show (i : ℝ) * (4 * Real.pi / (Real.sqrt 5 + 1)) =
      ((i : ℝ) * (4 * Real.pi)) / (Real.sqrt 5 + 1) by ring, eq_div_iff hs1] at hn
  have hkey : (n : ℝ) * (Real.sqrt 5 + 1) = 4 * i :=
    mul_right_cancel₀ hpi (by linear_combination hn)
  rcases eq_or_ne n 0 with hn0 | hn0
  · rw [hn0] at hkey
    push_cast at hkey
    have hi0 : (i : ℝ) = 0 := by linarith
    exact hi (by exact_mod_cast hi0)
  · apply sqrt5_irrational
    have hnR : (n : ℝ) ≠ 0 := Int.cast_ne_zero.mpr hn0
    refine ⟨(4 * i - n : ℤ) / (n : ℤ), ?_⟩
    push_cast
    rw [div_eq_iff hnR]
    linear_combination -hkey

/-- The spoke angle never has zero cosine: that would make √5 rational. -/
theorem spokeAngle_cos_ne_zero (i : ℕ) : Real.cos (spokeAngle i) ≠ 0 := by
  intro h
  rw [Real.cos_eq_zero_iff] at h
  obtain ⟨n, hn⟩ := h
  unfold spokeAngle doubleGoldenAngle at hn
  have hs1 := sqrt5_add_one_ne_zero
  have hpi := Real.pi_ne_zero
  rw [show (i : ℝ) * (4 * Real.pi / (Real.sqrt 5 + 1)) =
      ((i : ℝ) * (4 * Real.pi)) / (Real.sqrt 5 + 1) by ring, div_eq_iff hs1] at hn
  have hkey : (2 * (n : ℝ) + 1) * (Real.sqrt 5 + 1) = 8 * i :=
    mul_right_cancel₀ hpi (by linear_combination (-2 : ℝ) * hn)
  have hodd : ((2 * n + 1 : ℤ) : ℝ) ≠ 0 := by
    rw [Int.cast_ne_zero]
    omega
  apply sqrt5_irrational
  refine ⟨(8 * i - (2 * n + 1) : ℤ) / ((2 * n + 1) : ℤ), ?_⟩
  push_cast at hodd ⊢
  rw [div_eq_iff hodd]
  linear_combination -hkey

theorem cos_ne_zero_of_sin_eq_zero {θ : ℝ} (hs : Real.sin θ = 0) : Real.cos θ ≠ 0 := by
  intro hc
  have h := Real.sin_sq_add_cos_sq θ
  rw [hs, hc] at h
  norm_num at h

theorem rotatedGrads_sin_zero (A E θ : ℝ) (hA : A ≠ 0) (hs : Real.sin θ = 0) :
    rotatedGrads A E θ = [⟨Channel.x, A * Real.cos θ, E⟩] := by
  unfold rotatedGrads
  rw [if_neg (mul_ne_zero hA (cos_ne_zero_of_sin_eq_zero hs)), if_pos (by rw [hs, mul_zero])]
  rfl

theorem rotatedGrads_cos_zero (A E θ : ℝ) (hc : Real.cos θ = 0) (hs : A * Real.sin θ ≠ 0) :
    rotatedGrads A E θ = [⟨Channel.y, A * Real.sin θ, E⟩] := by
  unfold rotatedGrads
  rw [if_pos (by rw [hc, mul_zero]), if_neg hs]
  rfl

theorem rotatedGrads_both (A E θ : ℝ) (hc : A * Real.cos θ ≠ 0) (hs : A * Real.sin θ ≠ 0) :
    rotatedGrads A E θ =
      [⟨Channel.x, A * Real.cos θ, E⟩, ⟨Channel.y, A * Real.sin θ, E⟩] := by
  unfold rotatedGrads
  rw [if_neg hc, if_neg hs]
  rfl

/-- Claim C4: the readout block of spoke `i` is built from the combined
readout+spoiler gradient rotated by exactly i · 4π/(√5+1) about the slice
axis; when the rotate service returns a single event the block is that
gradient plus the sampling window, when it returns two the block is both
gradients plus the sampling window; for every spoke other than 0 the
rotated result genuinely spans both in-plane axes, and it lies on a single
axis exactly for spoke 0. -/
theorem C4_readout_rotation (P : MainEvents) (i : ℕ) (hA : P.roAmp ≠ 0) :
    spokeAngle i = (i : ℝ) * (4 * Real.pi / (Real.sqrt 5 + 1)) ∧
    (∀ g : Grad2, rotatedGrads P.roAmp P.roExt (spokeAngle i) = [g] →
        readoutBlock P i = [SeqEv.grad g, SeqEv.adcWin]) ∧
    (∀ g1 g2 : Grad2, rotatedGrads P.roAmp P.roExt (spokeAngle i) = [g1, g2] →
        readoutBlock P i = [SeqEv.grad g1, SeqEv.grad g2, SeqEv.adcWin]) ∧
    (i ≠ 0 → rotatedGrads P.roAmp P.roExt (spokeAngle i) =
        [⟨Channel.x, P.roAmp * Real.cos (spokeAngle i), P.roExt⟩,
         ⟨Channel.y, P.roAmp * Real.sin (spokeAngle i), P.roExt⟩]) ∧
    ((rotatedGrads P.roAmp P.roExt (spokeAngle i)).length = 1 ↔ i = 0) := by
  have hboth : i ≠ 0 → rotatedGrads P.roAmp P.roExt (spokeAngle i) =
      [⟨Channel.x, P.roAmp * Real.cos (spokeAngle i), P.roExt⟩,
       ⟨Channel.y, P.roAmp * Real.sin (spokeAngle i), P.roExt⟩] := by
    intro hi
    have hs : Real.sin (spokeAngle i) ≠ 0 := fun h => hi (spokeAngle_sin_eq_zero h)
    exact rotatedGrads_both _ _ _
      (mul_ne_zero hA (spokeAngle_cos_ne_zero i)) (mul_ne_zero hA hs)
  refine ⟨rfl, ?_, ?_, hboth, ?_, ?_⟩
  · intro g h
    simp [readoutBlock, h]
  · intro g1 g2 h
    simp [readoutBlock, h]
  · intro hlen
    by_contra hi
    rw [hboth hi] at hlen
    simp at hlen
  · intro hi
    subst hi
    have h0 : spokeAngle 0 = 0 := by
      unfold spokeAngle
      norm_num
    rw [rotatedGrads_sin_zero P.roAmp P.roExt _ hA (by rw [h0, Real.sin_zero])]
    rfl

theorem C4_witness :
    witnessEvents.roAmp ≠ 0 ∧
    (spokeAngle 1 = ((1 : ℕ) : ℝ) * (4 * Real.pi / (Real.sqrt 5 + 1)) ∧
    (∀ g : Grad2, rotatedGrads witnessEvents.roAmp witnessEvents.roExt (spokeAngle 1) = [g] →
        readoutBlock witnessEvents 1 = [SeqEv.grad g, SeqEv.adcWin]) ∧
    (∀ g1 g2 : Grad2,
        rotatedGrads witnessEvents.roAmp witnessEvents.roExt (spokeAngle 1) = [g1, g2] →
        readoutBlock witnessEvents 1 = [SeqEv.grad g1, SeqEv.grad g2, SeqEv.adcWin]) ∧
    (1 ≠ 0 → rotatedGrads witnessEvents.roAmp witnessEvents.roExt (spokeAngle 1) =
        [⟨Channel.x, witnessEvents.roAmp * Real.cos (spokeAngle 1), witnessEvents.roExt⟩,
         ⟨Channel.y, witnessEvents.roAmp * Real.sin (spokeAngle 1), witnessEvents.roExt⟩]) ∧
    ((rotatedGrads witnessEvents.roAmp witnessEvents.roExt (spokeAngle 1)).length = 1 ↔
        1 = 0)) :=
  ⟨one_ne_zero, C4_readout_rotation witnessEvents 1 one_ne_zero⟩

theorem readoutBlock_duration (P : MainEvents) (i : ℕ) (hA : P.roAmp ≠ 0) :
    blockDuration P (readoutBlock P i) = max P.roExt (max P.adcExt 0) := by
  by_cases hs : Real.sin (spokeAngle i) = 0
  · rw [readoutBlock, rotatedGrads_sin_zero P.roAmp P.roExt _ hA hs]
    simp [blockDuration, evExt]
  · by_cases hc : Real.cos (spokeAngle i) = 0
    · rw [readoutBlock, rotatedGrads_cos_zero P.roAmp P.roExt _ hc (mul_ne_zero hA hs)]
      simp [blockDuration, evExt]
    · rw [readoutBlock,
        rotatedGrads_both P.roAmp P.roExt _ (mul_ne_zero hA hc) (mul_ne_zero hA hs)]
      simp only [List.length_cons, List.length_nil]
      norm_num
      simp [blockDuration, evExt, ← max_assoc, max_self]

theorem spokeDuration_const (P : MainEvents) (i : ℕ) (hA : P.roAmp ≠ 0) :
    spokeDuration P i = spokeDuration P 0 := by
  simp only [spokeDuration, blocksDuration, spokeBlocks, List.map_cons, List.map_nil,
    List.sum_cons, List.sum_nil]
  rw [readoutBlock_duration P i hA, readoutBlock_duration P 0 hA]

/-- Claim C5: main's loop with 4 spokes yields exactly 20 blocks, each
spoke contributing, in order, {slice-select + right half pulse},
{mid-phase}, {slice-select + left half pulse}, {rephase}, {rotated
readout+spoiler + sampling window}; every spoke has the same duration, and
the cumulative duration after spoke 0 (the reported TR) equals that common
per-spoke duration. -/
theorem C5_sequence_layout (P : MainEvents) (hA : P.roAmp ≠ 0) :
    (mainBlocks P 4).length = 20 ∧
    (∀ i, i < 4 → ((mainBlocks P 4).drop (5 * i)).take 5 =
       [[SeqEv.sliceSelect, SeqEv.rfRight], [SeqEv.midPhase],
        [SeqEv.sliceSelect, SeqEv.rfLeft], [SeqEv.rephase], readoutBlock P i]) ∧
    (∀ i : ℕ, spokeDuration P i = spokeDuration P 0) ∧
    blocksDuration P ((mainBlocks P 4).take 5) = spokeDuration P 0 := by
  have hmb : mainBlocks P 4 =
      spokeBlocks P 0 ++ (spokeBlocks P 1 ++ (spokeBlocks P 2 ++ (spokeBlocks P 3 ++ []))) := by
    show ((List.range 4).map (spokeBlocks P)).flatten = _
    rw [show List.range 4 = [0, 1, 2, 3] from rfl]
    rfl
  refine ⟨?_, ?_, fun i => spokeDuration_const P i hA, ?_⟩
  · rw [hmb]
    rfl
  · intro i hi
    interval_cases i <;> (rw [hmb] ; rfl)
  · rw [hmb]
    rfl

theorem C5_witness :
    witnessEvents.roAmp ≠ 0 ∧
    ((mainBlocks witnessEvents 4).length = 20 ∧
    (∀ i, i < 4 → ((mainBlocks witnessEvents 4).drop (5 * i)).take 5 =
       [[SeqEv.sliceSelect, SeqEv.rfRight], [SeqEv.midPhase],
        [SeqEv.sliceSelect, SeqEv.rfLeft], [SeqEv.rephase], readoutBlock witnessEvents i]) ∧
    (∀ i : ℕ, spokeDuration witnessEvents i = spokeDuration witnessEvents 0) ∧
    blocksDuration witnessEvents ((mainBlocks witnessEvents 4).take 5) =
      spokeDuration witnessEvents 0) :=
  ⟨one_ne_zero, C5_sequence_layout witnessEvents one_ne_zero⟩

end DoubleHalfPulse
